import Mathlib

/-!
Shallow embedding of the SPI DAC controller `SPI` from `src/spi.py` (a migen
module), together with theorems checking the specification's claims about it.

Modelling conventions:
* Machine integers (migen `Signal`s) are `Nat` with explicit `% 2 ^ width`
  where hardware wraparound can occur.
* The module is a synchronous single-clock design.  `spiStep` is the
  cycle-accurate transition of all registers; `tickStep` is the update applied
  on cycles where the clock divider's `clk_cnt_done` is high (the FSM's clock
  enable, `fsm.ce.eq(clk_cnt_done)`), i.e. one "divider tick".
* Combinational signals (`ready`, `pads.syncr`, `pads.sclk`, `pads.sdi`,
  `cnt_load`, `data_load`, `init_latch`, `clk_cnt_done`) are functions of the
  current state and inputs.
* The source signal `self.initialized` is modelled by the field `inited`
  (same semantics, renamed).
* `pads.syncr` has reset value 1 and `pads.sclk` reset value 0 (see
  `ZotinoPads` in `src/pads.py`); in FSM states that do not drive them, migen
  gives a combinational FSM output its reset value.
-/

/-- States of the transfer state machine, `FSM("IDLE")` in `SPI.__init__`. -/
inductive FsmState
  | IDLE
  | SETUP
  | HOLD
  | DELAY
  | BUSY_LOW
  | BUSY_HIGH
  deriving DecidableEq, Repr

/-- Configuration, the `SPIParams` namedtuple of `src/spi.py`: number of
channels, width of one data word, and clock half-cycle width (divisor). -/
structure SPIParams where
  channels : Nat
  data_width : Nat
  clk_width : Nat
  deriving DecidableEq, Repr

/-- Width of the shift register `sr_data` and the data latch `dataSPI`:
`params.data_width*params.channels` bits. -/
def spiW (p : SPIParams) : Nat := p.data_width * p.channels

/-- Width of the counter `bits`, a migen `Signal(max=data_width*channels+1)`. -/
def bitsWidth (p : SPIParams) : Nat := Nat.size (spiW p)

/-- Width of `word_counter`, a migen `Signal(max=channels+1)`. -/
def wcWidth (p : SPIParams) : Nat := Nat.size p.channels

/-- Registered (synchronous) state of the `SPI` module: FSM state register,
clock-divider counter `clk_counter`, init latch flop `sync_init`, the sticky
output flag `self.initialized` (field `inited`), shift register `sr_data`,
remaining-bit counter `bits` and remaining-word counter `word_counter`. -/
structure SPIState where
  fsm : FsmState
  clk_counter : Nat
  sync_init : Bool
  inited : Bool
  sr_data : Nat
  bits : Nat
  word_counter : Nat
  deriving DecidableEq, Repr

/-- External inputs read by the module on a cycle: `self.start`, `self.init`,
`self.busy` (externally driven handshake level) and the parallel data latch
`self.dataSPI`. -/
structure SPIInputs where
  start : Bool
  init : Bool
  busy : Bool
  dataSPI : Nat
  deriving DecidableEq, Repr

/-- Combinational `clk_cnt_done.eq(clk_counter == 0)`, the divider tick and
FSM clock enable. -/
def clk_cnt_done (s : SPIState) : Bool := decide (s.clk_counter = 0)

/-- Combinational `self.init_latch.eq(comb_init | sync_init & ~self.initialized)`
with `comb_init.eq(self.init)`. -/
def init_latch (s : SPIState) (i : SPIInputs) : Bool :=
  i.init || (s.sync_init && !s.inited)

/-- Combinational `self.ready`: driven 1 only in `fsm.act("IDLE", ...)`. -/
def ready (s : SPIState) : Bool :=
  match s.fsm with
  | .IDLE => true
  | _ => false

/-- Combinational chip select `pads.syncr`: driven 1 in IDLE and BUSY_LOW,
driven 0 in SETUP/HOLD/DELAY, and takes its reset value 1 in BUSY_HIGH where
the FSM does not drive it. -/
def syncr (s : SPIState) : Bool :=
  match s.fsm with
  | .SETUP => false
  | .HOLD => false
  | .DELAY => false
  | _ => true

/-- Combinational serial clock `pads.sclk`: driven 1 only in SETUP. -/
def sclk (s : SPIState) : Bool :=
  match s.fsm with
  | .SETUP => true
  | _ => false

/-- Combinational serial data `pads.sdi.eq(sr_data[-1])`: the MSB of the shift
register (MSB-first framing). -/
def sdi (p : SPIParams) (s : SPIState) : Bool :=
  s.sr_data.testBit (spiW p - 1)

/-- Combinational `cnt_load`: asserted in IDLE when a request is accepted, in
SETUP and HOLD, and in BUSY_HIGH on the `Elif(self.busy, ...)` branch. -/
def cnt_load (s : SPIState) (i : SPIInputs) : Bool :=
  match s.fsm with
  | .IDLE => i.start || i.init
  | .SETUP => true
  | .HOLD => true
  | .BUSY_HIGH => i.busy && decide (s.word_counter ≠ 0)
  | _ => false

/-- Combinational `data_load`: asserted (for the one tick leaving IDLE) when a
`start`/`init` request is accepted in IDLE. -/
def data_load (s : SPIState) (i : SPIInputs) : Bool :=
  match s.fsm with
  | .IDLE => i.start || i.init
  | _ => false

/-- Combinational next-state function of the FSM (the `NextState` actions of
the six `fsm.act` blocks). -/
def fsmNext (s : SPIState) (i : SPIInputs) : FsmState :=
  match s.fsm with
  | .IDLE => if i.start || i.init then .SETUP else .IDLE
  | .SETUP => if s.bits = 0 then .DELAY else .HOLD
  | .HOLD => .SETUP
  | .DELAY => .BUSY_LOW
  | .BUSY_LOW => if !i.busy then .BUSY_HIGH else .BUSY_LOW
  | .BUSY_HIGH =>
      if i.busy && decide (s.word_counter = 0) then .IDLE
      else if i.busy then .SETUP else .BUSY_HIGH

/-- Decrement of a `w`-bit hardware down-counter: wraps to `2 ^ w - 1` at 0. -/
def decWrap (w n : Nat) : Nat := if n = 0 then 2 ^ w - 1 else n - 1

/-- The update performed on a divider-tick cycle (`clk_cnt_done` high): the
FSM state register advances (`CEInserter` with `fsm.ce.eq(clk_cnt_done)`), the
divider reloads if `cnt_load`, `sync_init` latches `self.init`, and the
`If(fsm.ce, ...)` datapath block of `src/spi.py` lines 127-170 runs.  The five
inner `If` blocks are applied in source order (later assignments win). -/
def tickStep (p : SPIParams) (s : SPIState) (i : SPIInputs) : SPIState :=
  let il := init_latch s i
  -- If(fsm.before_leaving("HOLD"), ...): decrement `bits`, shift MSB out
  let leaveHOLD := s.fsm = FsmState.HOLD ∧ fsmNext s i ≠ FsmState.HOLD
  let bits1 := if leaveHOLD then decWrap (bitsWidth p) s.bits else s.bits
  let sr1 := if leaveHOLD then s.sr_data * 2 % 2 ^ spiW p else s.sr_data
  -- If(fsm.ongoing("IDLE"), ...): preset `word_counter` and `bits`
  let wc2 := if s.fsm = FsmState.IDLE then
      (if il && !s.inited then 1 else p.channels) else s.word_counter
  let bits2 := if s.fsm = FsmState.IDLE then p.data_width - 1 else bits1
  -- If(fsm.before_leaving("BUSY_HIGH"), ...): preset `bits`, set `initialized`
  let leaveBH := s.fsm = FsmState.BUSY_HIGH ∧ fsmNext s i ≠ FsmState.BUSY_HIGH
  let bits3 := if leaveBH then p.data_width - 1 else bits2
  let inited3 := if leaveBH ∧ s.word_counter = 0 ∧ il = true then true else s.inited
  -- If(fsm.ongoing("DELAY"), ...): decrement `word_counter`, shift once more
  let wc4 := if s.fsm = FsmState.DELAY then decWrap (wcWidth p) s.word_counter
      else wc2
  let sr4 := if s.fsm = FsmState.DELAY then sr1 * 2 % 2 ^ spiW p else sr1
  -- If(data_load, ...): load shift register from the latch
  let sr5 := if data_load s i then
      (if il then i.dataSPI % 2 ^ p.data_width * 2 ^ (p.data_width * (p.channels - 1))
       else i.dataSPI % 2 ^ spiW p)
    else sr4
  { fsm := fsmNext s i
    clk_counter := if cnt_load s i then p.clk_width - 1 else s.clk_counter
    sync_init := s.sync_init || i.init
    inited := inited3
    sr_data := sr5
    bits := bits3
    word_counter := wc4 }

/-- The divider register's transition, `src/spi.py` lines 48-57: on a tick
(`clk_counter = 0`) reload to `clk_width - 1` when `cnt_load` is requested
(else hold at 0); otherwise decrement. -/
def clkStep (w : Nat) (load : Bool) (c : Nat) : Nat :=
  if c = 0 then (if load then w - 1 else c) else c - 1

/-- Full cycle-accurate transition of the module: on non-tick cycles only the
divider counts down and `sync_init` latches `self.init` (everything else is
gated by `fsm.ce`); on tick cycles `tickStep` applies. -/
def spiStep (p : SPIParams) (s : SPIState) (i : SPIInputs) : SPIState :=
  if clk_cnt_done s then tickStep p s i
  else { s with clk_counter := s.clk_counter - 1, sync_init := s.sync_init || i.init }

/-- Iterated tick-level execution from a state along an input trace. -/
def runT (p : SPIParams) (s : SPIState) (ins : Nat → SPIInputs) : Nat → SPIState
  | 0 => s
  | t + 1 => tickStep p (runT p s ins t) (ins t)

/-- Bits presented on the serial-data line during the first `t` ticks: the
value of `pads.sdi` on every tick on which `pads.sclk` is high (FSM in SETUP),
in order. -/
def emitted (p : SPIParams) (s : SPIState) (ins : Nat → SPIInputs) : Nat → List Bool
  | 0 => []
  | t + 1 =>
      emitted p s ins t ++
        (if (runT p s ins t).fsm = FsmState.SETUP then [sdi p (runT p s ins t)]
         else [])

/-- The divider iterated from 0 with `cnt_load` continuously requested (the
cadence of the SETUP/HOLD phases). -/
def clkRun (w : Nat) : Nat → Nat
  | 0 => 0
  | n + 1 => clkStep w true (clkRun w n)

/-- Concrete configuration of the C8 scenario: 4 channels, 24-bit words,
divisor 4. -/
def c8params : SPIParams := ⟨4, 24, 4⟩

/-- C8 scenario inputs: `start` pulsed for exactly one tick at tick 0; per
word, `busy` is driven low for the 2 ticks straddling the BUSY_LOW/BUSY_HIGH
wait (ticks 49 and 50 of each 51-tick word block) and high otherwise; the
data latch holds 4 distinct 24-bit patterns. -/
def c8inputs (t : Nat) : SPIInputs :=
  { start := t == 0, init := false,
    busy := !(t % 51 == 49 || t % 51 == 50),
    dataSPI := 0x111111222222333333444444 }

/-- C8 scenario initial state: FSM in IDLE, all registers at reset. -/
def c8s0 : SPIState := ⟨.IDLE, 0, false, false, 0, 0, 0⟩

/-- Concrete 2-channel, 2-bit, divisor-1 configuration used for witnesses. -/
def w1params : SPIParams := ⟨2, 2, 1⟩

/-- Witness initial state: IDLE, all registers at reset. -/
def w1s0 : SPIState := ⟨.IDLE, 0, false, false, 0, 0, 0⟩

/-- Witness inputs for a normal transfer of the latch value 11. -/
def w1inputs (t : Nat) : SPIInputs :=
  { start := t == 0, init := false, busy := !(t % 6 == 5), dataSPI := 11 }

/-- Witness inputs for an init transfer (init pulsed at tick 0) followed by a
normal transfer (start pulsed at tick 7, when the FSM is back in IDLE). -/
def w3inputs (t : Nat) : SPIInputs :=
  { start := t == 7, init := t == 0,
    busy := !(t == 5 || t == 12 || t == 18),
    dataSPI := if t < 7 then 9 else 6 }

/-- Shift-register content after `e` MSB-first shifts of a value `v` in the
`spiW p`-bit register `sr_data`. -/
def srShl (p : SPIParams) (v e : Nat) : Nat := v * 2 ^ e % 2 ^ spiW p

/-- Mid-transfer invariant for a transfer of `n` words of an initial register
value `v`, relating the state after the accept tick to `e`, the number of bits
emitted so far.  `c0`/`i0` record the (constant during the transfer)
`sync_init` and `initialized` values. -/
def MidInv (p : SPIParams) (n v : Nat) (c0 i0 : Bool) (s : SPIState) (e : Nat) : Prop :=
  s.sync_init = c0 ∧ s.inited = i0 ∧
  ((s.fsm = FsmState.SETUP ∧ ∃ m b, m < n ∧ b < p.data_width ∧
      e = m * p.data_width + b ∧ s.bits = p.data_width - 1 - b ∧
      s.word_counter = n - m ∧ s.sr_data = srShl p v e) ∨
   (s.fsm = FsmState.HOLD ∧ ∃ m b, m < n ∧ b + 1 < p.data_width ∧
      e = m * p.data_width + b + 1 ∧ s.bits = p.data_width - 1 - b ∧
      s.word_counter = n - m ∧ s.sr_data = srShl p v (m * p.data_width + b)) ∨
   (s.fsm = FsmState.DELAY ∧ ∃ m, m < n ∧ e = (m + 1) * p.data_width ∧
      s.bits = 0 ∧ s.word_counter = n - m ∧ s.sr_data = srShl p v (e - 1)) ∨
   ((s.fsm = FsmState.BUSY_LOW ∨ s.fsm = FsmState.BUSY_HIGH) ∧ ∃ m, m < n ∧
      e = (m + 1) * p.data_width ∧ s.bits = 0 ∧
      s.word_counter = n - (m + 1) ∧ s.sr_data = srShl p v e))

/-- Computation of `tickStep` from IDLE. -/
theorem tickStep_IDLE (p : SPIParams) (s : SPIState) (i : SPIInputs)
    (h : s.fsm = FsmState.IDLE) :
    tickStep p s i =
      { fsm := if i.start || i.init then FsmState.SETUP else FsmState.IDLE
        clk_counter := if i.start || i.init then p.clk_width - 1 else s.clk_counter
        sync_init := s.sync_init || i.init
        inited := s.inited
        sr_data := if i.start || i.init then
            (if init_latch s i then
              i.dataSPI % 2 ^ p.data_width * 2 ^ (p.data_width * (p.channels - 1))
             else i.dataSPI % 2 ^ spiW p)
          else s.sr_data
        bits := p.data_width - 1
        word_counter := if init_latch s i && !s.inited then 1 else p.channels } := by
  simp [tickStep, fsmNext, cnt_load, data_load, h]

/-- Computation of `tickStep` from SETUP. -/
theorem tickStep_SETUP (p : SPIParams) (s : SPIState) (i : SPIInputs)
    (h : s.fsm = FsmState.SETUP) :
    tickStep p s i =
      { fsm := if s.bits = 0 then FsmState.DELAY else FsmState.HOLD
        clk_counter := p.clk_width - 1
        sync_init := s.sync_init || i.init
        inited := s.inited
        sr_data := s.sr_data
        bits := s.bits
        word_counter := s.word_counter } := by
  simp [tickStep, fsmNext, cnt_load, data_load, h]

/-- Computation of `tickStep` from HOLD. -/
theorem tickStep_HOLD (p : SPIParams) (s : SPIState) (i : SPIInputs)
    (h : s.fsm = FsmState.HOLD) :
    tickStep p s i =
      { fsm := FsmState.SETUP
        clk_counter := p.clk_width - 1
        sync_init := s.sync_init || i.init
        inited := s.inited
        sr_data := s.sr_data * 2 % 2 ^ spiW p
        bits := decWrap (bitsWidth p) s.bits
        word_counter := s.word_counter } := by
  simp [tickStep, fsmNext, cnt_load, data_load, h]

/-- Computation of `tickStep` from DELAY. -/
theorem tickStep_DELAY (p : SPIParams) (s : SPIState) (i : SPIInputs)
    (h : s.fsm = FsmState.DELAY) :
    tickStep p s i =
      { fsm := FsmState.BUSY_LOW
        clk_counter := s.clk_counter
        sync_init := s.sync_init || i.init
        inited := s.inited
        sr_data := s.sr_data * 2 % 2 ^ spiW p
        bits := s.bits
        word_counter := decWrap (wcWidth p) s.word_counter } := by
  simp [tickStep, fsmNext, cnt_load, data_load, h]

/-- Computation of `tickStep` from BUSY_LOW. -/
theorem tickStep_BUSY_LOW (p : SPIParams) (s : SPIState) (i : SPIInputs)
    (h : s.fsm = FsmState.BUSY_LOW) :
    tickStep p s i =
      { fsm := if !i.busy then FsmState.BUSY_HIGH else FsmState.BUSY_LOW
        clk_counter := s.clk_counter
        sync_init := s.sync_init || i.init
        inited := s.inited
        sr_data := s.sr_data
        bits := s.bits
        word_counter := s.word_counter } := by
  simp [tickStep, fsmNext, cnt_load, data_load, h]

/-- Computation of `tickStep` from BUSY_HIGH with `busy` low: wait in place. -/
theorem tickStep_BUSY_HIGH_wait (p : SPIParams) (s : SPIState) (i : SPIInputs)
    (h : s.fsm = FsmState.BUSY_HIGH) (hb : i.busy = false) :
    tickStep p s i =
      { fsm := FsmState.BUSY_HIGH
        clk_counter := s.clk_counter
        sync_init := s.sync_init || i.init
        inited := s.inited
        sr_data := s.sr_data
        bits := s.bits
        word_counter := s.word_counter } := by
  simp [tickStep, fsmNext, cnt_load, data_load, h, hb]

/-- Computation of `tickStep` from BUSY_HIGH with `busy` high: leave to IDLE
(word counter 0) or SETUP, presetting `bits` and possibly `initialized`. -/
theorem tickStep_BUSY_HIGH_go (p : SPIParams) (s : SPIState) (i : SPIInputs)
    (h : s.fsm = FsmState.BUSY_HIGH) (hb : i.busy = true) :
    tickStep p s i =
      { fsm := if s.word_counter = 0 then FsmState.IDLE else FsmState.SETUP
        clk_counter := if s.word_counter = 0 then s.clk_counter else p.clk_width - 1
        sync_init := s.sync_init || i.init
        inited := if s.word_counter = 0 ∧ init_latch s i = true then true else s.inited
        sr_data := s.sr_data
        bits := p.data_width - 1
        word_counter := s.word_counter } := by
  by_cases hw : s.word_counter = 0 <;>
    simp [tickStep, fsmNext, cnt_load, data_load, h, hb, hw]

/-- C2 counterexample: with the FSM in IDLE, `sync_init` latched and
`initialized` still clear, an init request is pending (`init_latch` is high,
the spec's "init-pending"), yet `ready` is high — refuting "ready is high iff
the FSM is in IDLE and no start or init request is pending" at this concrete
state and input. -/
theorem spi_C2_counterexample :
    ¬ (ready ⟨FsmState.IDLE, 0, true, false, 0, 0, 0⟩ = true ↔
        ((⟨FsmState.IDLE, 0, true, false, 0, 0, 0⟩ : SPIState).fsm = FsmState.IDLE ∧
          init_latch ⟨FsmState.IDLE, 0, true, false, 0, 0, 0⟩ ⟨false, false, true, 0⟩ = false ∧
          (⟨false, false, true, 0⟩ : SPIInputs).start = false)) := by
  decide

/-- C2 (amended): `ready` is high exactly when the FSM is in IDLE, regardless
of pending `start`/`init` requests; in particular it is never high outside
IDLE, i.e. never during a transfer. -/
theorem spi_C2_ready_iff_idle (s : SPIState) :
    ready s = true ↔ s.fsm = FsmState.IDLE := by
  cases h : s.fsm <;> simp [ready, h]

/-- C4: chip-select framing.  Chip select (`pads.syncr`) is asserted (low)
exactly in SETUP, HOLD and DELAY; from SETUP or HOLD the next tick stays in
one of these three states (so chip select stays asserted continuously from
the first bit of a word through the DELAY tick after its last bit); the tick
after DELAY is always BUSY_LOW, where chip select is deasserted; BUSY_LOW can
only be followed by BUSY_LOW or BUSY_HIGH (both deasserted); and BUSY_HIGH
never jumps back into HOLD or DELAY, so the next word's chip-select
reassertion can only happen via a fresh SETUP entered from BUSY_HIGH after at
least one deasserted BUSY_LOW tick. -/
theorem spi_C4_chip_select_framing (p : SPIParams) (s : SPIState) (i : SPIInputs) :
    (syncr s = false ↔
      (s.fsm = FsmState.SETUP ∨ s.fsm = FsmState.HOLD ∨ s.fsm = FsmState.DELAY))
    ∧ ((s.fsm = FsmState.SETUP ∨ s.fsm = FsmState.HOLD) →
        ((tickStep p s i).fsm = FsmState.SETUP ∨ (tickStep p s i).fsm = FsmState.HOLD ∨
          (tickStep p s i).fsm = FsmState.DELAY))
    ∧ (s.fsm = FsmState.DELAY →
        (tickStep p s i).fsm = FsmState.BUSY_LOW ∧ syncr (tickStep p s i) = true)
    ∧ (s.fsm = FsmState.BUSY_LOW →
        ((tickStep p s i).fsm = FsmState.BUSY_LOW ∨
          (tickStep p s i).fsm = FsmState.BUSY_HIGH))
    ∧ (s.fsm = FsmState.BUSY_HIGH →
        ((tickStep p s i).fsm = FsmState.IDLE ∨ (tickStep p s i).fsm = FsmState.SETUP ∨
          (tickStep p s i).fsm = FsmState.BUSY_HIGH)) := by
  refine ⟨?_, ?_, ?_, ?_, ?_⟩
  · cases h : s.fsm <;> simp [syncr, h]
  · rintro (h | h)
    · rw [tickStep_SETUP p s i h]
      by_cases hb : s.bits = 0 <;> simp [hb]
    · rw [tickStep_HOLD p s i h]; simp
  · intro h
    rw [tickStep_DELAY p s i h]; simp [syncr]
  · intro h
    rw [tickStep_BUSY_LOW p s i h]
    cases hb : i.busy <;> simp [hb]
  · intro h
    cases hb : i.busy
    · rw [tickStep_BUSY_HIGH_wait p s i h hb]; simp
    · rw [tickStep_BUSY_HIGH_go p s i h hb]
      by_cases hw : s.word_counter = 0 <;> simp [hw]

/-- Witness for C4: from a concrete DELAY state, the next tick is BUSY_LOW
with chip select deasserted. -/
theorem spi_C4_witness :
    (tickStep w1params ⟨FsmState.DELAY, 0, false, false, 6, 0, 2⟩
        ⟨false, false, true, 0⟩).fsm = FsmState.BUSY_LOW ∧
      syncr (tickStep w1params ⟨FsmState.DELAY, 0, false, false, 6, 0, 2⟩
        ⟨false, false, true, 0⟩) = true :=
  (spi_C4_chip_select_framing w1params ⟨FsmState.DELAY, 0, false, false, 6, 0, 2⟩
    ⟨false, false, true, 0⟩).2.2.1 rfl

/-- C6: on the one-tick `data_load` pulse (which can only be high with the FSM
in IDLE, leaving for SETUP): with an init transfer pending the shift register
is loaded with only the lowest `data_width` bits of the latch placed in the
most-significant word slot (all lower channel slots zero); otherwise it is
loaded with the full latch verbatim (truncated to its `data_width*channels`-bit
width). -/
theorem spi_C6_data_load (p : SPIParams) (s : SPIState) (i : SPIInputs)
    (hload : data_load s i = true) :
    s.fsm = FsmState.IDLE
    ∧ (tickStep p s i).fsm = FsmState.SETUP
    ∧ (tickStep p s i).sr_data =
        (if init_latch s i then
          i.dataSPI % 2 ^ p.data_width * 2 ^ (p.data_width * (p.channels - 1))
         else i.dataSPI % 2 ^ spiW p)
    ∧ (init_latch s i = true →
        (tickStep p s i).sr_data / 2 ^ (p.data_width * (p.channels - 1)) =
            i.dataSPI % 2 ^ p.data_width
        ∧ (tickStep p s i).sr_data % 2 ^ (p.data_width * (p.channels - 1)) = 0) := by
  have hf : s.fsm = FsmState.IDLE := by
    cases h : s.fsm <;> simp_all [data_load]
  have hacc : (i.start || i.init) = true := by
    simpa [data_load, hf] using hload
  refine ⟨hf, ?_, ?_, ?_⟩
  · rw [tickStep_IDLE p s i hf]; simp [hacc]
  · rw [tickStep_IDLE p s i hf]; simp [hacc]
  · intro hil
    rw [tickStep_IDLE p s i hf]
    simp only [hacc, if_true, hil]
    constructor
    · simp [Nat.mul_div_cancel _ (Nat.two_pow_pos _)]
    · simp [Nat.mul_mod_left]

/-- Witness for C6: concrete init-pending load places the low word in the top
slot. -/
theorem spi_C6_witness :
    (tickStep w1params ⟨FsmState.IDLE, 0, true, false, 0, 0, 0⟩
        ⟨false, true, true, 9⟩).sr_data / 2 ^ 2 = 1 ∧
      (tickStep w1params ⟨FsmState.IDLE, 0, true, false, 0, 0, 0⟩
        ⟨false, true, true, 9⟩).sr_data % 2 ^ 2 = 0 :=
  (spi_C6_data_load w1params ⟨FsmState.IDLE, 0, true, false, 0, 0, 0⟩
    ⟨false, true, true, 9⟩ rfl).2.2.2 rfl

/-- C7: outside IDLE the `start` input is read nowhere: two cycles differing
only in `start` produce the same successor state (FSM state, shift register,
all counters and flags), so repeated `start` pulses while not ready are
ignored and cannot corrupt an in-flight transfer. -/
theorem spi_C7_start_ignored (p : SPIParams) (s : SPIState) (i : SPIInputs) (b : Bool)
    (h : s.fsm ≠ FsmState.IDLE) :
    spiStep p s { i with start := b } = spiStep p s i := by
  unfold spiStep
  by_cases hc : clk_cnt_done s = true
  · simp only [hc, if_true]
    cases hf : s.fsm
    · exact absurd hf h
    all_goals
      simp [tickStep, fsmNext, cnt_load, data_load, init_latch, hf]
  · simp [hc]

/-- Witness for C7: a concrete mid-transfer state ignores `start`. -/
theorem spi_C7_witness :
    spiStep w1params ⟨FsmState.HOLD, 0, false, false, 6, 1, 2⟩
        ⟨true, false, true, 11⟩ =
      spiStep w1params ⟨FsmState.HOLD, 0, false, false, 6, 1, 2⟩
        ⟨false, false, true, 11⟩ :=
  spi_C7_start_ignored w1params ⟨FsmState.HOLD, 0, false, false, 6, 1, 2⟩
    ⟨false, false, true, 11⟩ true (by decide)

/-- C9: on a cycle where the divider tick `clk_cnt_done` is low, the FSM state
register, shift register, bit counter, word counter and `initialized` flag are
all unchanged — datapath and FSM updates happen only on tick cycles. -/
theorem spi_C9_frame (p : SPIParams) (s : SPIState) (i : SPIInputs)
    (h : clk_cnt_done s = false) :
    (spiStep p s i).fsm = s.fsm
    ∧ (spiStep p s i).sr_data = s.sr_data
    ∧ (spiStep p s i).bits = s.bits
    ∧ (spiStep p s i).word_counter = s.word_counter
    ∧ (spiStep p s i).inited = s.inited := by
  simp [spiStep, h]

/-- Witness for C9: concrete non-tick cycle freezes the datapath. -/
theorem spi_C9_witness :
    (spiStep c8params ⟨FsmState.SETUP, 3, false, false, 6, 1, 2⟩
        ⟨false, false, true, 0⟩).sr_data = 6 :=
  (spi_C9_frame c8params ⟨FsmState.SETUP, 3, false, false, 6, 1, 2⟩
    ⟨false, false, true, 0⟩ (by decide)).2.1

/-- C10: once `initialized` is set, asserting `init` again in IDLE starts a
transfer whose shift register is loaded init-style (lowest segment in the top
word slot) but whose word counter is set to `channels`, not 1 — because the
IDLE word-counter branch tests `init_latch & ~initialized` while the load
branch tests `init_latch` alone. -/
theorem spi_C10_reinit (p : SPIParams) (s : SPIState) (i : SPIInputs)
    (hf : s.fsm = FsmState.IDLE) (hinit : s.inited = true) (hi : i.init = true) :
    (tickStep p s i).fsm = FsmState.SETUP
    ∧ (tickStep p s i).word_counter = p.channels
    ∧ (tickStep p s i).sr_data =
        i.dataSPI % 2 ^ p.data_width * 2 ^ (p.data_width * (p.channels - 1)) := by
  rw [tickStep_IDLE p s i hf]
  simp [init_latch, hi, hinit]

/-- Witness for C10: concrete post-init re-init request. -/
theorem spi_C10_witness :
    (tickStep w1params ⟨FsmState.IDLE, 0, true, true, 0, 0, 0⟩
        ⟨false, true, true, 9⟩).word_counter = 2 :=
  (spi_C10_reinit w1params ⟨FsmState.IDLE, 0, true, true, 0, 0, 0⟩
    ⟨false, true, true, 9⟩ rfl rfl rfl).2.1

/-- Closed form of the divider iterated from 0 with load continuously
requested: after `n` cycles the counter is `(w - n % w) % w`. -/
theorem clkRun_closed (w : Nat) (hw : 1 ≤ w) (n : Nat) :
    clkRun w n = (w - n % w) % w := by
  induction n with
  | zero => simp [clkRun]
  | succ n ih =>
    rw [clkRun, ih, clkStep]
    rcases Nat.lt_or_ge 1 w with hw2 | hw1
    · have hone : 1 % w = 1 := Nat.mod_eq_of_lt hw2
      have hj : n % w < w := Nat.mod_lt _ (by omega)
      have hsucc : (n + 1) % w = (n % w + 1) % w := by
        conv_lhs => rw [Nat.add_mod, hone]
      rcases Nat.eq_or_lt_of_le hj with hja | hjb
      · -- n % w = w - 1 : counter is 1, decrements to 0
        have h1 : n % w = w - 1 := by omega
        have h2 : (w - n % w) % w = 1 := by
          rw [h1, Nat.sub_sub_self (by omega), hone]
        have h3 : (n + 1) % w = 0 := by
          rw [hsucc, h1]
          have : w - 1 + 1 = w := by omega
          rw [this, Nat.mod_self]
        rw [h2, h3]
        simp
      · rcases Nat.eq_zero_or_pos (n % w) with hj0 | hjpos
        · -- n % w = 0 : counter is 0, reloads to w - 1
          have h2 : (w - n % w) % w = 0 := by rw [hj0, Nat.sub_zero, Nat.mod_self]
          have h3 : (n + 1) % w = 1 := by
            rw [hsucc, hj0, hone]
          rw [h2, h3]
          simp [Nat.mod_eq_of_lt (show w - 1 < w by omega)]
        · -- 0 < n % w < w - 1 : counter decrements
          have h2 : (w - n % w) % w = w - n % w :=
            Nat.mod_eq_of_lt (by omega)
          have h3 : (n + 1) % w = n % w + 1 := by
            rw [hsucc]
            exact Nat.mod_eq_of_lt (by omega)
          rw [h2, h3, if_neg (by omega),
            Nat.mod_eq_of_lt (show w - (n % w + 1) < w by omega)]
          omega
    · interval_cases w
      simp [Nat.mod_one]

/-- C5: the clock divider.  (1) In the full module, the `clk_counter` register
steps exactly by the divider transition `clkStep` driven by the FSM's
`cnt_load` request.  (2) On a tick with load requested the counter reloads to
`clk_width - 1` (without load it freezes at 0).  (3) On a non-tick cycle it
decrements.  (4) With load continuously requested (the FSM holding its
cadence), the tick fires exactly once every `clk_width` cycles: iterating from
a tick, the counter is back at 0 exactly at the multiples of `clk_width`. -/
theorem spi_C5_clock_divider :
    (∀ (p : SPIParams) (s : SPIState) (i : SPIInputs),
        (spiStep p s i).clk_counter = clkStep p.clk_width (cnt_load s i) s.clk_counter)
    ∧ (∀ w l, clkStep w l 0 = if l then w - 1 else 0)
    ∧ (∀ w l c, c ≠ 0 → clkStep w l c = c - 1)
    ∧ (∀ w, 1 ≤ w → ∀ n, (clkRun w n = 0 ↔ w ∣ n)) := by
  refine ⟨?_, ?_, ?_, ?_⟩
  · intro p s i
    by_cases h : s.clk_counter = 0
    · have hd : clk_cnt_done s = true := by simp [clk_cnt_done, h]
      simp only [spiStep, hd, if_true, tickStep, clkStep, h, if_true]
    · have hd : clk_cnt_done s = false := by simp [clk_cnt_done, h]
      simp [spiStep, hd, clkStep, h]
  · intro w l
    simp [clkStep]
  · intro w l c hc
    simp [clkStep, hc]
  · intro w hw n
    rw [clkRun_closed w hw n, Nat.dvd_iff_mod_eq_zero]
    have hj : n % w < w := Nat.mod_lt _ (by omega)
    constructor
    · intro h
      by_contra hne
      have h2 : (w - n % w) % w = w - n % w := Nat.mod_eq_of_lt (by omega)
      omega
    · intro h
      rw [h, Nat.sub_zero, Nat.mod_self]

/-- Witness for C5: the divider with divisor 3 and load held returns to 0 at
cycle 6. -/
theorem spi_C5_witness : clkRun 3 6 = 0 :=
  (spi_C5_clock_divider.2.2.2 3 (by decide) 6).mpr (by decide)

set_option maxRecDepth 100000 in
/-- C8: concrete scenario `channels=4, data_width=24, clk_width=4`.  With the
latch holding 4 distinct 24-bit patterns, `start` pulsed for one tick while
`ready` is high, and `busy` driven low for 2 ticks then high per word (low on
ticks 49 and 50 of each 51-tick word block), the FSM first returns to IDLE,
with `ready` high, exactly `4*(24*2+3)+1` divider ticks after the tick on
which `start` is accepted; along the way it emits the 96 latch bits MSB-first. -/
theorem spi_C8_concrete_scenario :
    ready c8s0 = true
    ∧ (runT c8params c8s0 c8inputs (4 * (24 * 2 + 3) + 1)).fsm = FsmState.IDLE
    ∧ ready (runT c8params c8s0 c8inputs (4 * (24 * 2 + 3) + 1)) = true
    ∧ (∀ t, t < 4 * (24 * 2 + 3) + 1 → 0 < t →
        (runT c8params c8s0 c8inputs t).fsm ≠ FsmState.IDLE)
    ∧ emitted c8params c8s0 c8inputs (4 * (24 * 2 + 3) + 1) =
        (List.range (spiW c8params)).map
          (fun k => Nat.testBit 0x111111222222333333444444 (spiW c8params - 1 - k)) := by
  refine ⟨rfl, by decide, by decide, by decide, by decide⟩

/-- Zero shifts leave the (truncated) initial value. -/
theorem srShl_zero (p : SPIParams) (v : Nat) : srShl p v 0 = v % 2 ^ spiW p := by
  simp [srShl]

/-- One more hardware shift advances `srShl` by one position. -/
theorem srShl_succ (p : SPIParams) (v e : Nat) :
    srShl p v e * 2 % 2 ^ spiW p = srShl p v (e + 1) := by
  unfold srShl
  rw [Nat.mod_mul_mod, pow_succ, ← Nat.mul_assoc]

/-- The MSB of the shift register after `e` shifts is bit `spiW p - 1 - e` of
the loaded value. -/
theorem testBit_srShl (p : SPIParams) (v e : Nat) (he : e < spiW p) :
    (srShl p v e).testBit (spiW p - 1) = v.testBit (spiW p - 1 - e) := by
  unfold srShl
  rw [Nat.testBit_mod_two_pow, ← Nat.shiftLeft_eq, Nat.testBit_shiftLeft]
  have h1 : spiW p - 1 < spiW p := by omega
  have h2 : spiW p - 1 ≥ e := by omega
  simp [h1, h2]

/-- Unfolding of one step of `runT`. -/
theorem runT_succ (p : SPIParams) (s : SPIState) (ins : Nat → SPIInputs) (t : Nat) :
    runT p s ins (t + 1) = tickStep p (runT p s ins t) (ins t) := rfl

/-- Unfolding of one step of `emitted`. -/
theorem emitted_succ (p : SPIParams) (s : SPIState) (ins : Nat → SPIInputs) (t : Nat) :
    emitted p s ins (t + 1) =
      emitted p s ins t ++
        (if (runT p s ins t).fsm = FsmState.SETUP then [sdi p (runT p s ins t)]
         else []) := rfl

/-- Shifting the trace by one tick. -/
theorem runT_shift (p : SPIParams) (s : SPIState) (ins : Nat → SPIInputs) (t : Nat) :
    runT p s ins (t + 1) =
      runT p (tickStep p s (ins 0)) (fun k => ins (k + 1)) t := by
  induction t with
  | zero => rfl
  | succ t ih => rw [runT_succ, ih]; rfl

/-- Splitting the trace at an intermediate tick. -/
theorem runT_add (p : SPIParams) (s : SPIState) (ins : Nat → SPIInputs) (a k : Nat) :
    runT p s ins (a + k) = runT p (runT p s ins a) (fun j => ins (a + j)) k := by
  induction k with
  | zero => rfl
  | succ k ih => rw [← Nat.add_assoc, runT_succ, ih]; rfl

/-- Splitting the emitted-bit list at the first tick. -/
theorem emitted_shift (p : SPIParams) (s : SPIState) (ins : Nat → SPIInputs) (t : Nat) :
    emitted p s ins (t + 1) =
      (if s.fsm = FsmState.SETUP then [sdi p s] else []) ++
        emitted p (tickStep p s (ins 0)) (fun k => ins (k + 1)) t := by
  induction t with
  | zero => simp [emitted_succ, emitted, runT]
  | succ t ih =>
    rw [emitted_succ, ih, emitted_succ, runT_shift, List.append_assoc]

/-- The `initialized` output is never cleared by the core: once high it stays
high on every cycle. -/
theorem inited_never_cleared (p : SPIParams) (s : SPIState) (i : SPIInputs)
    (h : s.inited = true) : (spiStep p s i).inited = true := by
  by_cases hc : clk_cnt_done s = true
  · simp [spiStep, hc, tickStep, h]
  · simp only [Bool.not_eq_true] at hc
    simp [spiStep, hc, h]

/-- One tick of a mid-transfer state: the bit presented in SETUP is the next
expected bit of the loaded value; if the FSM does not return to IDLE the
invariant is preserved (with the emitted count advanced on SETUP ticks); if it
does return to IDLE, all `n * data_width` bits have been emitted and the
`initialized` flag has been updated from the init latch. -/
theorem midInv_step (p : SPIParams) (n v : Nat) (c0 i0 : Bool) (s : SPIState)
    (e : Nat) (i : SPIInputs)
    (hdw : 1 ≤ p.data_width) (hn : n ≤ p.channels)
    (hinv : MidInv p n v c0 i0 s e) (hni : i.init = false) :
    (s.fsm = FsmState.SETUP → sdi p s = v.testBit (spiW p - 1 - e))
    ∧ ((tickStep p s i).fsm ≠ FsmState.IDLE →
        MidInv p n v c0 i0 (tickStep p s i)
          (e + if s.fsm = FsmState.SETUP then 1 else 0))
    ∧ ((tickStep p s i).fsm = FsmState.IDLE →
        e = n * p.data_width ∧ s.fsm ≠ FsmState.SETUP ∧
        (tickStep p s i).inited = (i0 || c0)) := by
  obtain ⟨hc, hi0, hcase⟩ := hinv
  have hsync : (s.sync_init || i.init) = c0 := by rw [hc, hni, Bool.or_false]
  rcases hcase with ⟨hf, m, b, hm, hb, he, hbits, hwc, hsr⟩ |
    ⟨hf, m, b, hm, hb, he, hbits, hwc, hsr⟩ |
    ⟨hf, m, hm, he, hbits, hwc, hsr⟩ |
    ⟨hfor, m, hm, he, hbits, hwc, hsr⟩
  · -- SETUP, about to emit bit e = m * data_width + b
    have h1 : (m + 1) * p.data_width = m * p.data_width + p.data_width :=
      Nat.succ_mul m p.data_width
    have heW : e < spiW p := by
      have h2 : (m + 1) * p.data_width ≤ n * p.data_width :=
        Nat.mul_le_mul_right _ hm
      have h3 : n * p.data_width ≤ p.channels * p.data_width :=
        Nat.mul_le_mul_right _ hn
      have h4 : p.channels * p.data_width = spiW p := Nat.mul_comm _ _
      omega
    refine ⟨fun _ => by rw [sdi, hsr, testBit_srShl p v e heW], ?_, ?_⟩
    · intro _
      rw [tickStep_SETUP p s i hf, if_pos hf]
      by_cases hb0 : s.bits = 0
      · -- last bit of the word: next state DELAY
        have hbe : b = p.data_width - 1 := by omega
        refine ⟨hsync, hi0, Or.inr (Or.inr (Or.inl ⟨?_, m, hm, ?_, hb0, hwc, ?_⟩))⟩
        · show (if s.bits = 0 then FsmState.DELAY else FsmState.HOLD) = FsmState.DELAY
          rw [if_pos hb0]
        · omega
        · show s.sr_data = srShl p v (e + 1 - 1)
          rw [Nat.add_sub_cancel]
          exact hsr
      · -- more bits to go: next state HOLD
        refine ⟨hsync, hi0, Or.inr (Or.inl ⟨?_, m, b, hm, ?_, ?_, hbits, hwc, ?_⟩)⟩
        · show (if s.bits = 0 then FsmState.DELAY else FsmState.HOLD) = FsmState.HOLD
          rw [if_neg hb0]
        · omega
        · omega
        · rw [hsr, he]
    · intro hcontra
      rw [tickStep_SETUP p s i hf] at hcontra
      by_cases hb0 : s.bits = 0 <;> simp [hb0] at hcontra
  · -- HOLD: shift and decrement, back to SETUP
    have hfne : s.fsm ≠ FsmState.SETUP := by rw [hf]; intro h; cases h
    refine ⟨fun h => absurd h hfne, ?_, ?_⟩
    · intro _
      rw [tickStep_HOLD p s i hf, if_neg hfne, Nat.add_zero]
      refine ⟨hsync, hi0, Or.inl ⟨rfl, m, b + 1, hm, hb, by omega, ?_, hwc, ?_⟩⟩
      · show decWrap (bitsWidth p) s.bits = p.data_width - 1 - (b + 1)
        have hnz : s.bits ≠ 0 := by omega
        rw [decWrap, if_neg hnz]
        omega
      · show s.sr_data * 2 % 2 ^ spiW p = srShl p v e
        rw [hsr, srShl_succ, he]
    · intro hcontra
      rw [tickStep_HOLD p s i hf] at hcontra
      simp at hcontra
  · -- DELAY: shift once more, decrement word counter, go to BUSY_LOW
    have hfne : s.fsm ≠ FsmState.SETUP := by rw [hf]; intro h; cases h
    have h1 : (m + 1) * p.data_width = m * p.data_width + p.data_width :=
      Nat.succ_mul m p.data_width
    refine ⟨fun h => absurd h hfne, ?_, ?_⟩
    · intro _
      rw [tickStep_DELAY p s i hf, if_neg hfne, Nat.add_zero]
      refine ⟨hsync, hi0, Or.inr (Or.inr (Or.inr ⟨Or.inl rfl, m, hm, he, hbits, ?_, ?_⟩))⟩
      · show decWrap (wcWidth p) s.word_counter = n - (m + 1)
        have hnz : s.word_counter ≠ 0 := by omega
        rw [decWrap, if_neg hnz, hwc]
        omega
      · show s.sr_data * 2 % 2 ^ spiW p = srShl p v e
        have hepos : 1 ≤ e := by omega
        rw [hsr, srShl_succ]
        congr 1
        omega
    · intro hcontra
      rw [tickStep_DELAY p s i hf] at hcontra
      simp at hcontra
  · -- BUSY_LOW or BUSY_HIGH: wait for the handshake
    have hfne : s.fsm ≠ FsmState.SETUP := by
      rcases hfor with hf | hf <;> rw [hf] <;> intro h <;> cases h
    rcases hfor with hf | hf
    · -- BUSY_LOW
      refine ⟨fun h => absurd h hfne, ?_, ?_⟩
      · intro _
        rw [tickStep_BUSY_LOW p s i hf, if_neg hfne, Nat.add_zero]
        refine ⟨hsync, hi0, Or.inr (Or.inr (Or.inr ⟨?_, m, hm, he, hbits, hwc, hsr⟩))⟩
        show (if !i.busy then FsmState.BUSY_HIGH else FsmState.BUSY_LOW) = FsmState.BUSY_LOW ∨
          (if !i.busy then FsmState.BUSY_HIGH else FsmState.BUSY_LOW) = FsmState.BUSY_HIGH
        cases i.busy <;> simp
      · intro hcontra
        rw [tickStep_BUSY_LOW p s i hf] at hcontra
        cases hbusy : i.busy <;> simp [hbusy] at hcontra
    · -- BUSY_HIGH
      cases hbusy : i.busy
      · refine ⟨fun h => absurd h hfne, ?_, ?_⟩
        · intro _
          rw [tickStep_BUSY_HIGH_wait p s i hf hbusy, if_neg hfne, Nat.add_zero]
          exact ⟨hsync, hi0, Or.inr (Or.inr (Or.inr
            ⟨Or.inr rfl, m, hm, he, hbits, hwc, hsr⟩))⟩
        · intro hcontra
          rw [tickStep_BUSY_HIGH_wait p s i hf hbusy] at hcontra
          simp at hcontra
      · -- busy high: leave BUSY_HIGH
        have h1 : (m + 1) * p.data_width = m * p.data_width + p.data_width :=
          Nat.succ_mul m p.data_width
        by_cases hw0 : s.word_counter = 0
        · -- word counter exhausted: return to IDLE
          have hmn : m + 1 = n := by omega
          refine ⟨fun h => absurd h hfne, ?_, ?_⟩
          · intro hcontra
            rw [tickStep_BUSY_HIGH_go p s i hf hbusy] at hcontra
            simp [hw0] at hcontra
          · intro _
            refine ⟨by rw [he, hmn], hfne, ?_⟩
            rw [tickStep_BUSY_HIGH_go p s i hf hbusy]
            have hil : init_latch s i = (c0 && !i0) := by
              rw [init_latch, hni, hc, hi0, Bool.false_or]
            show (if s.word_counter = 0 ∧ init_latch s i = true then true else s.inited) =
              (i0 || c0)
            rw [hil, hi0]
            cases c0 <;> cases i0 <;> simp [hw0]
        · -- more words: back to SETUP for the next word
          have hmn : m + 1 < n := by omega
          refine ⟨fun h => absurd h hfne, ?_, ?_⟩
          · intro _
            rw [tickStep_BUSY_HIGH_go p s i hf hbusy, if_neg hfne, Nat.add_zero]
            refine ⟨hsync, ?_, Or.inl ⟨?_, m + 1, 0, hmn, by omega, by omega, ?_, ?_, ?_⟩⟩
            · show (if s.word_counter = 0 ∧ init_latch s i = true then true else s.inited) = i0
              rw [if_neg (by intro h; exact hw0 h.1), hi0]
            · show (if s.word_counter = 0 then FsmState.IDLE else FsmState.SETUP) =
                FsmState.SETUP
              rw [if_neg hw0]
            · show p.data_width - 1 = p.data_width - 1 - 0
              omega
            · show s.word_counter = n - (m + 1)
              exact hwc
            · show s.sr_data = srShl p v (e + 0)
              rw [Nat.add_zero, hsr]
          · intro hcontra
            rw [tickStep_BUSY_HIGH_go p s i hf hbusy] at hcontra
            simp [hw0] at hcontra

/-- Induction along a transfer: as long as the FSM has not returned to IDLE,
the mid-transfer invariant holds and the emitted bits are exactly the first
`e` bits (MSB-first) of the loaded value. -/
theorem transfer_aux (p : SPIParams) (n v : Nat) (c0 i0 : Bool) (s1 : SPIState)
    (ins : Nat → SPIInputs)
    (hdw : 1 ≤ p.data_width) (hn1 : 1 ≤ n) (hn : n ≤ p.channels)
    (hfsm : s1.fsm = FsmState.SETUP) (hbits : s1.bits = p.data_width - 1)
    (hwc : s1.word_counter = n) (hsr : s1.sr_data = v % 2 ^ spiW p)
    (hc : s1.sync_init = c0) (hi : s1.inited = i0)
    (hno : ∀ t, (ins t).init = false) :
    ∀ t, (∀ u, u ≤ t → (runT p s1 ins u).fsm ≠ FsmState.IDLE) →
      ∃ e, MidInv p n v c0 i0 (runT p s1 ins t) e ∧
        emitted p s1 ins t =
          (List.range e).map (fun k => v.testBit (spiW p - 1 - k)) := by
  intro t
  induction t with
  | zero =>
    intro _
    refine ⟨0, ⟨hc, hi, Or.inl ⟨hfsm, 0, 0, hn1, hdw, by omega, hbits, hwc, ?_⟩⟩, rfl⟩
    rw [srShl_zero]
    exact hsr
  | succ t ih =>
    intro hnid
    obtain ⟨e, hInv, hEm⟩ := ih (fun u hu => hnid u (Nat.le_succ_of_le hu))
    have hstep := midInv_step p n v c0 i0 (runT p s1 ins t) e (ins t) hdw hn hInv (hno t)
    have hne : (tickStep p (runT p s1 ins t) (ins t)).fsm ≠ FsmState.IDLE := by
      have h := hnid (t + 1) (Nat.le_refl _)
      rwa [runT_succ] at h
    refine ⟨e + if (runT p s1 ins t).fsm = FsmState.SETUP then 1 else 0, ?_, ?_⟩
    · rw [runT_succ]
      exact hstep.2.1 hne
    · rw [emitted_succ, hEm]
      by_cases hS : (runT p s1 ins t).fsm = FsmState.SETUP
      · rw [if_pos hS, if_pos hS, hstep.1 hS, List.range_succ, List.map_append]
        rfl
      · rw [if_neg hS, if_neg hS, Nat.add_zero, List.append_nil]

/-- A whole transfer: starting from the first SETUP tick after a load of the
`spiW p`-bit value `v` with `n` words to send, if the FSM first returns to
IDLE at tick `T`, then exactly the `n * data_width` leading bits of `v` were
emitted MSB-first, the `initialized` flag was updated from the latched init
state on the final tick, and was constant before it. -/
theorem transfer_run (p : SPIParams) (n v : Nat) (c0 i0 : Bool) (s1 : SPIState)
    (ins : Nat → SPIInputs) (T : Nat)
    (hdw : 1 ≤ p.data_width) (hn1 : 1 ≤ n) (hn : n ≤ p.channels)
    (hfsm : s1.fsm = FsmState.SETUP) (hbits : s1.bits = p.data_width - 1)
    (hwc : s1.word_counter = n) (hsr : s1.sr_data = v % 2 ^ spiW p)
    (hc : s1.sync_init = c0) (hi : s1.inited = i0)
    (hno : ∀ t, (ins t).init = false)
    (hTend : (runT p s1 ins T).fsm = FsmState.IDLE)
    (hTfirst : ∀ t, t < T → (runT p s1 ins t).fsm ≠ FsmState.IDLE) :
    emitted p s1 ins T =
      (List.range (n * p.data_width)).map (fun k => v.testBit (spiW p - 1 - k))
    ∧ (runT p s1 ins T).inited = (i0 || c0)
    ∧ ∀ t, t < T → (runT p s1 ins t).inited = i0 := by
  have hT0 : T ≠ 0 := by
    intro h
    rw [h] at hTend
    rw [show runT p s1 ins 0 = s1 from rfl, hfsm] at hTend
    cases hTend
  obtain ⟨T', rfl⟩ : ∃ T', T = T' + 1 := ⟨T - 1, by omega⟩
  have haux := transfer_aux p n v c0 i0 s1 ins hdw hn1 hn hfsm hbits hwc hsr hc hi hno
  obtain ⟨e, hInv, hEm⟩ := haux T' (fun u hu => hTfirst u (by omega))
  have hstep := midInv_step p n v c0 i0 (runT p s1 ins T') e (ins T') hdw hn hInv (hno T')
  have hIdle : (tickStep p (runT p s1 ins T') (ins T')).fsm = FsmState.IDLE := by
    rwa [runT_succ] at hTend
  obtain ⟨heq, hnotS, hinit'⟩ := hstep.2.2 hIdle
  refine ⟨?_, ?_, ?_⟩
  · rw [emitted_succ, hEm, if_neg hnotS, List.append_nil, heq]
  · rw [runT_succ]
    exact hinit'
  · intro t ht
    obtain ⟨e', hInv', _⟩ := haux t (fun u hu => hTfirst u (by omega))
    exact hInv'.2.1

/-- Accepting a `start`/`init` request in IDLE with no init transfer pending
starts a normal transfer: if the FSM first returns to IDLE at tick `T`, the
serial-data line carried exactly the `channels * data_width` bits of the data
latch, MSB-first. -/
theorem accept_normal (p : SPIParams) (s0 : SPIState) (ins : Nat → SPIInputs) (T : Nat)
    (hch : 1 ≤ p.channels) (hdw : 1 ≤ p.data_width)
    (h0 : s0.fsm = FsmState.IDLE)
    (hacc : ((ins 0).start || (ins 0).init) = true)
    (hil : init_latch s0 (ins 0) = false)
    (hno : ∀ t, 0 < t → (ins t).init = false)
    (hTend : (runT p s0 ins T).fsm = FsmState.IDLE)
    (hTfirst : ∀ t, t < T → 0 < t → (runT p s0 ins t).fsm ≠ FsmState.IDLE)
    (hTpos : 0 < T) :
    emitted p s0 ins T =
      (List.range (p.channels * p.data_width)).map
        (fun k => ((ins 0).dataSPI).testBit (spiW p - 1 - k)) := by
  obtain ⟨T', rfl⟩ : ∃ T', T = T' + 1 := ⟨T - 1, by omega⟩
  have hcomp := tickStep_IDLE p s0 (ins 0) h0
  set s1 := tickStep p s0 (ins 0) with hs1
  have hf1 : s1.fsm = FsmState.SETUP := by rw [hcomp]; simp [hacc]
  have hb1 : s1.bits = p.data_width - 1 := by rw [hcomp]
  have hw1 : s1.word_counter = p.channels := by rw [hcomp]; simp [hil]
  have hsr1 : s1.sr_data = (ins 0).dataSPI % 2 ^ spiW p := by
    rw [hcomp]; simp [hacc, hil]
  have hrun := transfer_run p p.channels ((ins 0).dataSPI) s1.sync_init s1.inited s1
    (fun k => ins (k + 1)) T' hdw hch (le_refl _) hf1 hb1 hw1 hsr1 rfl rfl
    (fun t => hno (t + 1) (by omega))
    (by rw [← runT_shift]; exact hTend)
    (fun t ht => by rw [← runT_shift]; exact hTfirst (t + 1) (by omega) (by omega))
  rw [emitted_shift, if_neg (by rw [h0]; intro h; cases h), List.nil_append]
  exact hrun.1

/-- Accepting an `init` request in IDLE with `initialized` still clear starts
an init transfer: if the FSM first returns to IDLE at tick `T`, exactly the
lowest `data_width` bits of the latch were sent (one word, MSB-first),
`initialized` is set at tick `T` and was clear on every earlier tick. -/
theorem accept_init (p : SPIParams) (s0 : SPIState) (ins : Nat → SPIInputs) (T : Nat)
    (hch : 1 ≤ p.channels) (hdw : 1 ≤ p.data_width)
    (h0 : s0.fsm = FsmState.IDLE) (hi0 : s0.inited = false)
    (hinit : (ins 0).init = true)
    (hno : ∀ t, 0 < t → (ins t).init = false)
    (hTend : (runT p s0 ins T).fsm = FsmState.IDLE)
    (hTfirst : ∀ t, t < T → 0 < t → (runT p s0 ins t).fsm ≠ FsmState.IDLE)
    (hTpos : 0 < T) :
    emitted p s0 ins T =
      (List.range p.data_width).map
        (fun k => ((ins 0).dataSPI).testBit (p.data_width - 1 - k))
    ∧ (runT p s0 ins T).inited = true
    ∧ ∀ t, t < T → (runT p s0 ins t).inited = false := by
  obtain ⟨T', rfl⟩ : ∃ T', T = T' + 1 := ⟨T - 1, by omega⟩
  have hacc : ((ins 0).start || (ins 0).init) = true := by rw [hinit]; simp
  have hil : init_latch s0 (ins 0) = true := by rw [init_latch, hinit]; simp
  have hW : p.data_width + p.data_width * (p.channels - 1) = spiW p := by
    obtain ⟨c, hcc⟩ : ∃ c, p.channels = c + 1 := ⟨p.channels - 1, by omega⟩
    rw [spiW, hcc]
    simp only [Nat.add_sub_cancel, Nat.mul_succ]
    omega
  have hvlt : (ins 0).dataSPI % 2 ^ p.data_width *
      2 ^ (p.data_width * (p.channels - 1)) < 2 ^ spiW p := by
    rw [← hW, pow_add]
    exact Nat.mul_lt_mul_of_pos_right (Nat.mod_lt _ (Nat.two_pow_pos _))
      (Nat.two_pow_pos _)
  have hcomp := tickStep_IDLE p s0 (ins 0) h0
  set s1 := tickStep p s0 (ins 0) with hs1
  have hf1 : s1.fsm = FsmState.SETUP := by rw [hcomp]; simp [hacc]
  have hb1 : s1.bits = p.data_width - 1 := by rw [hcomp]
  have hw1 : s1.word_counter = 1 := by rw [hcomp]; simp [hil, hi0]
  have hsr1 : s1.sr_data =
      (ins 0).dataSPI % 2 ^ p.data_width * 2 ^ (p.data_width * (p.channels - 1)) %
        2 ^ spiW p := by
    rw [hcomp]
    simp [hacc, hil, Nat.mod_eq_of_lt hvlt]
  have hsy1 : s1.sync_init = true := by rw [hcomp]; simp [hinit]
  have hin1 : s1.inited = false := by rw [hcomp]; exact hi0
  have hrun := transfer_run p 1
    ((ins 0).dataSPI % 2 ^ p.data_width * 2 ^ (p.data_width * (p.channels - 1)))
    true false s1 (fun k => ins (k + 1)) T' hdw (le_refl _) hch hf1 hb1 hw1 hsr1 hsy1 hin1
    (fun t => hno (t + 1) (by omega))
    (by rw [← runT_shift]; exact hTend)
    (fun t ht => by rw [← runT_shift]; exact hTfirst (t + 1) (by omega) (by omega))
  refine ⟨?_, ?_, ?_⟩
  · rw [emitted_shift, if_neg (by rw [h0]; intro h; cases h), List.nil_append, hrun.1,
      one_mul]
    apply List.map_congr_left
    intro k hk
    have hkd : k < p.data_width := List.mem_range.mp hk
    have h1 : spiW p - 1 - k ≥ p.data_width * (p.channels - 1) := by omega
    have h2 : spiW p - 1 - k - p.data_width * (p.channels - 1) =
        p.data_width - 1 - k := by omega
    have h3 : p.data_width - 1 - k < p.data_width := by omega
    rw [← Nat.shiftLeft_eq, Nat.testBit_shiftLeft, decide_eq_true h1, Bool.true_and,
      h2, Nat.testBit_mod_two_pow, decide_eq_true h3, Bool.true_and]
  · rw [runT_shift]
    simpa using hrun.2.1
  · intro t ht
    rcases Nat.eq_zero_or_pos t with rfl | htpos
    · exact hi0
    · obtain ⟨u, rfl⟩ : ∃ u, t = u + 1 := ⟨t - 1, by omega⟩
      rw [runT_shift]
      exact hrun.2.2 u (by omega)

/-- C1: for every valid configuration and every latch value, a normal transfer
started from IDLE by an accepted `start` (no init transfer pending) emits, on
the serial-data line, exactly `channels` words of `data_width` bits each —
i.e. the `channels * data_width` bits of the loaded latch, MSB-first word by
word — by the tick `T` at which the FSM first returns to IDLE. -/
theorem spi_C1_normal_transfer (p : SPIParams) (s0 : SPIState)
    (ins : Nat → SPIInputs) (T : Nat)
    (hch : 1 ≤ p.channels) (hdw : 1 ≤ p.data_width) (hck : 1 ≤ p.clk_width)
    (h0 : s0.fsm = FsmState.IDLE)
    (hlatch : s0.sync_init = false ∨ s0.inited = true)
    (hno : ∀ t, (ins t).init = false)
    (hstart : (ins 0).start = true)
    (hTend : (runT p s0 ins T).fsm = FsmState.IDLE)
    (hTfirst : ∀ t, t < T → 0 < t → (runT p s0 ins t).fsm ≠ FsmState.IDLE)
    (hTpos : 0 < T) :
    emitted p s0 ins T =
      (List.range (p.channels * p.data_width)).map
        (fun k => ((ins 0).dataSPI).testBit (spiW p - 1 - k)) := by
  apply accept_normal p s0 ins T hch hdw h0 (by rw [hstart]; simp) ?_
    (fun t _ => hno t) hTend hTfirst hTpos
  rw [init_latch, hno 0]
  rcases hlatch with h | h <;> rw [h] <;> simp

/-- Witness for C1: the concrete 2-channel 2-bit transfer of latch value 11
emits [1,0,1,1]. -/
theorem spi_C1_witness :
    emitted w1params w1s0 w1inputs 13 =
      (List.range (w1params.channels * w1params.data_width)).map
        (fun k => ((w1inputs 0).dataSPI).testBit (spiW w1params - 1 - k)) :=
  spi_C1_normal_transfer w1params w1s0 w1inputs 13 (by decide) (by decide) (by decide)
    rfl (Or.inl rfl) (fun t => rfl) rfl (by decide) (by decide) (by decide)

/-- C3: an init transfer (an `init` request accepted in IDLE with
`initialized` clear) sends exactly 1 word of `data_width` bits (the lowest
segment of the latch, MSB-first), sets `initialized` exactly at its
completion tick `T` (clear at every earlier tick), `initialized` is never
cleared by the core, and a subsequent `start` accepted at tick `T` runs a
normal `channels`-word transfer of the full latch without init behaviour. -/
theorem spi_C3_init_transfer (p : SPIParams) (s0 : SPIState)
    (ins : Nat → SPIInputs) (T T2 : Nat)
    (hch : 1 ≤ p.channels) (hdw : 1 ≤ p.data_width)
    (h0 : s0.fsm = FsmState.IDLE) (hi0 : s0.inited = false)
    (hinit : (ins 0).init = true)
    (hno : ∀ t, 0 < t → (ins t).init = false)
    (hTend : (runT p s0 ins T).fsm = FsmState.IDLE)
    (hTfirst : ∀ t, t < T → 0 < t → (runT p s0 ins t).fsm ≠ FsmState.IDLE)
    (hTpos : 0 < T)
    (hstart2 : (ins T).start = true)
    (hT2end : (runT p s0 ins T2).fsm = FsmState.IDLE)
    (hT2first : ∀ t, t < T2 → T < t → (runT p s0 ins t).fsm ≠ FsmState.IDLE)
    (hT2gt : T < T2) :
    emitted p s0 ins T =
      (List.range p.data_width).map
        (fun k => ((ins 0).dataSPI).testBit (p.data_width - 1 - k))
    ∧ (runT p s0 ins T).inited = true
    ∧ (∀ t, t < T → (runT p s0 ins t).inited = false)
    ∧ (∀ (s : SPIState) (i : SPIInputs), s.inited = true →
        (spiStep p s i).inited = true)
    ∧ emitted p (runT p s0 ins T) (fun k => ins (T + k)) (T2 - T) =
        (List.range (p.channels * p.data_width)).map
          (fun k => ((ins T).dataSPI).testBit (spiW p - 1 - k)) := by
  have hA := accept_init p s0 ins T hch hdw h0 hi0 hinit hno hTend hTfirst hTpos
  refine ⟨hA.1, hA.2.1, hA.2.2, fun s i h => inited_never_cleared p s i h, ?_⟩
  have hadd : ∀ k, runT p s0 ins (T + k) =
      runT p (runT p s0 ins T) (fun j => ins (T + j)) k :=
    fun k => runT_add p s0 ins T k
  have hd0 : (T + 0) = T := rfl
  have hC := accept_normal p (runT p s0 ins T) (fun k => ins (T + k)) (T2 - T)
    hch hdw hTend
    (by show ((ins (T + 0)).start || (ins (T + 0)).init) = true
        rw [hd0, hstart2]; simp)
    (by show init_latch (runT p s0 ins T) (ins (T + 0)) = false
        rw [init_latch, hd0, hno T hTpos, hA.2.1]; simp)
    (fun t ht => hno (T + t) (by omega))
    (by rw [← hadd, show T + (T2 - T) = T2 by omega]; exact hT2end)
    (fun t ht htpos => by rw [← hadd]; exact hT2first (T + t) (by omega) (by omega))
    (by omega)
  have hd0' : (ins (T + 0)).dataSPI = (ins T).dataSPI := rfl
  rw [hC, hd0']

/-- Witness for C3: the concrete 2-channel 2-bit init transfer (latch 9, low
word 0b01) followed by a normal transfer of latch 6. -/
theorem spi_C3_witness :
    (runT w1params w1s0 w3inputs 7).inited = true ∧
      emitted w1params w1s0 w3inputs 7 =
        (List.range w1params.data_width).map
          (fun k => ((w3inputs 0).dataSPI).testBit (w1params.data_width - 1 - k)) := by
  have h := spi_C3_init_transfer w1params w1s0 w3inputs 7 20 (by decide) (by decide)
    rfl rfl rfl (fun t ht => by simp [w3inputs]; omega) (by decide) (by decide)
    (by decide) (by decide) (by decide) (by decide) (by decide)
  exact ⟨h.2.1, h.1⟩
